import Mathlib

/-!
Verification of the media-ingestion backend (`src/app.js`).

The development shallowly embeds the data model and the operations of the
`POST /upload-cat-video`, `GET /cat-videos` routes and their helpers.
JavaScript strings are modelled as Lean `String`s; the JS string methods
`startsWith` / `endsWith` / `includes` are modelled as character-sequence
tests on `String.data`.  The `videos` directory is a `List String` of file
names, the persisted `cats.json` catalog file is an
`Option (List MediaRecord)` (`none` = file absent).  External subprocesses
(the downloader, `ffprobe`, `ffmpeg`) are modelled by scenario records that
fix each subprocess outcome for one request; the handler itself is
translated branch by branch from the source.
-/

/-- Model of JS `needle.startsWith(hay)` receiver-flipped: `strStarts p s`
is `true` when string `s` starts with `p` (character-sequence test). -/
def strStarts (p s : String) : Bool := decide (p.data <+: s.data)

/-- Model of JS `s.endsWith(p)`: `true` when `s` ends with `p`. -/
def strEnds (p s : String) : Bool := decide (p.data <:+ s.data)

/-- Model of JS `s.includes(p)`: `true` when `p` occurs contiguously in `s`. -/
def strIncludes (p s : String) : Bool := decide (p.data <:+: s.data)

/-- JS truthiness of a possibly-absent string value: `undefined` and the
empty string are falsy, every other string is truthy. -/
def jsTruthyS : Option String → Bool
  | some s => !(s == "")
  | none => false

/-- JS `a || b` on a possibly-absent string `a` with string default `b`. -/
def jsOrS (a : Option String) (b : String) : String :=
  if jsTruthyS a then a.getD "" else b

/-- The shape of the objects pushed onto `cats.json` by the upload handler
(`newPost` in `src/app.js`): `id`, `name`, `url`, `createdAt`, `source`. -/
structure MediaRecord where
  id : String
  name : String
  url : String
  createdAt : String
  source : String
deriving Repr, DecidableEq

/-- `ensureCatsFileExists` (src/app.js): if `cats.json` is absent, write
`[]`; returns the resulting file state. -/
def ensureCatsFileExists : Option (List MediaRecord) → Option (List MediaRecord)
  | none => some []
  | some l => some l

/-- `GET /cat-videos` (src/app.js): ensure the file exists, read and return
the parsed list; result is the response body paired with the file state. -/
def catsList (s : Option (List MediaRecord)) :
    List MediaRecord × Option (List MediaRecord) :=
  let s' := ensureCatsFileExists s
  (s'.getD [], s')

/-- The catalog-append effect of one successful upload request
(src/app.js lines 169-170 and 301-302, run sequentially): ensure the file
exists, read the list, push the new record, write the whole list back. -/
def catsAppend (s : Option (List MediaRecord)) (r : MediaRecord) :
    Option (List MediaRecord) :=
  let s' := ensureCatsFileExists s
  some ((s'.getD []) ++ [r])

/-- N sequential catalog appends. -/
def catsAppendAll (s : Option (List MediaRecord)) (rs : List MediaRecord) :
    Option (List MediaRecord) :=
  rs.foldl catsAppend s

/-- The remote-URL check of the handler (src/app.js line 182):
the URL is rejected exactly when it contains neither
`youtube.com/shorts/` nor `youtu.be/` as a substring. -/
def youtubeUrlRejected (url : String) : Bool :=
  !(strIncludes "youtube.com/shorts/" url) && !(strIncludes "youtu.be/" url)

/-- The MIME allow-list of the multer `fileFilter` (src/app.js line 157). -/
def allowedTypes : List String := ["video/mp4", "video/quicktime", "video/x-msvideo"]

/-- The multer `fileFilter` decision (src/app.js lines 155-163): accept
exactly the declared MIME types on the allow-list. -/
def fileFilterAllows (mimetype : String) : Bool := allowedTypes.contains mimetype

/-- The unique temp name for one remote download,
`` `yt_temp_${Date.now()}` `` (src/app.js line 186). -/
def tempNameOf (tempNow : Nat) : String := "yt_temp_" ++ Nat.repr tempNow

/-- The generated final name of a remote ingestion,
`` `yt_${Date.now()}_h264.mp4` `` (src/app.js line 223). -/
def finalFilenameYt (finalNow : Nat) : String := "yt_" ++ Nat.repr finalNow ++ "_h264.mp4"

/-- `originalFilename.includes('.') ? originalFilename.substring(0,
originalFilename.lastIndexOf('.')) : originalFilename`
(src/app.js lines 253-255): the name up to its last dot. -/
def baseNameOf (name : String) : String :=
  if name.data.contains '.' then
    match name.data.reverse.dropWhile (fun c => !(c == '.')) with
    | _ :: before => String.mk before.reverse
    | [] => name
  else name

/-- `finalFilename.replace(/\.[^/.]+$/, '')` (src/app.js line 291): drop a
final extension consisting of a dot followed by one or more characters none
of which is a dot or a slash; otherwise leave the name unchanged. -/
def stripExt (f : String) : String :=
  let r := f.data.reverse
  let ext := r.takeWhile (fun c => !(c == '.') && !(c == '/'))
  let rest := r.dropWhile (fun c => !(c == '.') && !(c == '/'))
  match rest, ext with
  | '.' :: before, _ :: _ => String.mk before.reverse
  | _, _ => f

/-- The `autoTitle` expression (src/app.js lines 288-291): caller-supplied
`customTitle`, else the probed format tag title, else — depending on the
source kind — either `` `YouTube Short ${Date.now()}` `` or the final file
name with its extension removed. -/
def autoTitle (customTitle tagTitle : Option String) (isYoutube : Bool)
    (titleNow : Nat) (finalFilename : String) : String :=
  jsOrS customTitle
    (jsOrS tagTitle
      (if isYoutube then "YouTube Short " ++ Nat.repr titleNow
       else stripExt finalFilename))

/-- The extension test in the main-file selection (src/app.js line 216):
`['.mp4', '.mkv', '.mov'].some(ext => f.endsWith(ext))`. -/
def hasVideoExt (f : String) : Bool :=
  [".mp4", ".mkv", ".mov"].any (fun ext => strEnds ext f)

/-- Main-file selection after a remote download (src/app.js lines 210-221):
list the `videos` directory, keep the files whose names start with the temp
stem, fail when there are none, otherwise take the first file carrying a
video extension (else the first file) as the main file and return the other
matching files as the temp artifacts to delete later. -/
def resolveDownload (dirFiles : List String) (tempName : String) :
    Except String (String × List String) :=
  let downloadedFiles := dirFiles.filter (fun f => strStarts tempName f)
  match downloadedFiles with
  | [] => Except.error "Failed to find downloaded YouTube video"
  | first :: _ =>
    let mainFile := (downloadedFiles.find? hasVideoExt).getD first
    Except.ok (mainFile, downloadedFiles.filter (fun f => !(f == mainFile)))

/-- The handler's request, as seen inside `app.post('/upload-cat-video', …)`:
`req.file` is the multer-saved file name when a file part was accepted,
and `req.body` carries the optional `youtubeUrl` and `customTitle` fields. -/
structure JsRequest where
  file : Option String
  youtubeUrl : Option String
  customTitle : Option String

/-- One value per `Date.now()` / `new Date()` call site of the handler;
separate fields because JS evaluates them at different instants. -/
structure Clock where
  tempNow : Nat
  finalNow : Nat
  titleNow : Nat
  idNow : Nat
  createdAt : String

/-- Fixed outcomes of the external subprocesses on the remote-URL path of
one request: whether `cookies.txt` exists, whether `youtube-dl` exits
cleanly, which files it leaves in the `videos` directory, and the
`ffmpeg` / `ffprobe` outcomes (`halfFinalLeft`: a failed transcode left a
half-written file at `finalPath`). -/
structure YtScenario where
  cookiesExist : Bool
  downloadOk : Bool
  downloadedArtifacts : List String
  transcodeOk : Bool
  halfFinalLeft : Bool
  probeOk : Bool
  tagTitle : Option String

/-- Fixed outcomes of the external subprocesses on the direct-upload path:
the first `ffprobe` on the original, the `ffmpeg` transcode, and the second
`ffprobe` on the produced file. -/
structure UploadScenario where
  probeOrigOk : Bool
  transcodeOk : Bool
  halfFinalLeft : Bool
  probeFinalOk : Bool
  tagTitle : Option String

/-- The terminal observable of one request. `handlerCrash` models an
exception thrown inside the `catch` block itself: the async handler's
promise rejects, so the application code sends no response at all (under
Express 4 the request hangs; no `{error, details}` JSON is ever produced).
`middlewareError` models an error raised by the multer middleware before
the handler runs, answered by Express's default error handler. -/
inductive UpResult where
  | created (newPost : MediaRecord)
  | badRequest (msg : String)
  | middlewareError (status : Nat) (msg : String)
  | handlerCrash (err : String)
deriving Repr, DecidableEq

/-- The HTTP status the application code produces for each outcome:
`201` for success, `400` for the explicit input rejections, the default
`500` for a multer middleware error, and no status at all when the handler
crashes (no response is sent by the application code). -/
def statusOf : UpResult → Option Nat
  | .created _ => some 201
  | .badRequest _ => some 400
  | .middlewareError s _ => some s
  | .handlerCrash _ => none

/-- The message of the `ReferenceError` raised inside the `catch` block:
`tempFilesToCleanup` is declared with `let` inside the `try` block
(src/app.js line 177), so the name is not in scope in the `catch` block
(lines 305-322); evaluating it at line 309 throws before any cleanup and
before `res.status(500)` is reached. -/
def refErrMsg : String := "ReferenceError: tempFilesToCleanup is not defined"

/-- The `POST /upload-cat-video` handler body (src/app.js lines 167-323),
translated branch by branch.  Arguments: the parsed request, the values of
the `Date.now()` call sites, the subprocess outcomes of both paths, the
`videos` directory listing at handler entry (for an accepted file upload
this already contains the multer-saved file), and the `cats.json` state.
Returns the terminal observable, the directory listing and the `cats.json`
state after the request.  Every error that reaches the `catch` block ends
in `handlerCrash refErrMsg` because the `catch` body dereferences the
out-of-scope `tempFilesToCleanup` before anything else it does. -/
def uploadCatVideo (req : JsRequest) (clk : Clock) (yt : YtScenario)
    (up : UploadScenario) (disk0 : List String)
    (cats0 : Option (List MediaRecord)) :
    UpResult × List String × Option (List MediaRecord) :=
  let catsFile := ensureCatsFileExists cats0
  let posts := catsFile.getD []
  let hasFile := req.file.isSome
  let hasUrl := jsTruthyS req.youtubeUrl
  if (!hasFile && !hasUrl) || (hasFile && hasUrl) then
    (.badRequest "Either video file or YouTube URL is required, but not both.",
      disk0, catsFile)
  else if hasUrl then
    let url := req.youtubeUrl.getD ""
    if youtubeUrlRejected url then
      (.badRequest "Only YouTube Shorts URLs are allowed.", disk0, catsFile)
    else if !yt.cookiesExist then
      (.handlerCrash refErrMsg, disk0, catsFile)
    else if !yt.downloadOk then
      (.handlerCrash refErrMsg, disk0 ++ yt.downloadedArtifacts, catsFile)
    else
      let tempName := tempNameOf clk.tempNow
      let disk1 := disk0 ++ yt.downloadedArtifacts
      match resolveDownload disk1 tempName with
      | .error _ => (.handlerCrash refErrMsg, disk1, catsFile)
      | .ok (mainFile, temps) =>
        let finalFilename := finalFilenameYt clk.finalNow
        if !yt.transcodeOk then
          (.handlerCrash refErrMsg,
            if yt.halfFinalLeft then disk1 ++ [finalFilename] else disk1,
            catsFile)
        else
          let disk2 := disk1.filter (fun f => !(f == mainFile)) ++ [finalFilename]
          if !yt.probeOk then
            (.handlerCrash refErrMsg, disk2, catsFile)
          else
            let disk3 := disk2.filter (fun f => !(temps.contains f))
            let title := autoTitle req.customTitle yt.tagTitle true
              clk.titleNow finalFilename
            let newPost : MediaRecord :=
              ⟨Nat.repr clk.idNow, title, "/videos/" ++ finalFilename,
                clk.createdAt, "youtube"⟩
            (.created newPost, disk3, some (posts ++ [newPost]))
  else
    match req.file with
    | none =>
      (.handlerCrash "TypeError: req.file is undefined", disk0, catsFile)
    | some origName =>
      if !up.probeOrigOk then
        (.handlerCrash refErrMsg, disk0, catsFile)
      else
        let finalFilename := baseNameOf origName ++ "_h264.mp4"
        if !up.transcodeOk then
          (.handlerCrash refErrMsg,
            if up.halfFinalLeft then disk0 ++ [finalFilename] else disk0,
            catsFile)
        else
          let disk2 := disk0.filter (fun f => !(f == origName)) ++ [finalFilename]
          if !up.probeFinalOk then
            (.handlerCrash refErrMsg, disk2, catsFile)
          else
            let title := autoTitle req.customTitle up.tagTitle false
              clk.titleNow finalFilename
            let newPost : MediaRecord :=
              ⟨Nat.repr clk.idNow, title, "/videos/" ++ finalFilename,
                clk.createdAt, "upload"⟩
            (.created newPost, disk2, some (posts ++ [newPost]))

/-- The request as it reaches the multer middleware, before any file is
saved: an optional file part with its declared MIME type and the name
multer would save it under, plus the body fields. -/
structure RawRequest where
  fileMimetype : Option String
  fileSavedName : String
  youtubeUrl : Option String
  customTitle : Option String

/-- The whole route `videoUpload.single('video')` followed by the handler:
with no file part the handler runs directly; with a file part whose MIME
type passes `fileFilterAllows`, multer first saves the file into the
`videos` directory and the handler then runs; otherwise multer raises
`Error('Invalid file type. Only video files are allowed.')`, the handler
never runs, and Express's default error handler answers with status 500
(the error carries no `status` field). -/
def postUploadCatVideo (raw : RawRequest) (clk : Clock) (yt : YtScenario)
    (up : UploadScenario) (disk0 : List String)
    (cats0 : Option (List MediaRecord)) :
    UpResult × List String × Option (List MediaRecord) :=
  match raw.fileMimetype with
  | none =>
    uploadCatVideo ⟨none, raw.youtubeUrl, raw.customTitle⟩ clk yt up disk0 cats0
  | some mimetype =>
    if fileFilterAllows mimetype then
      uploadCatVideo ⟨some raw.fileSavedName, raw.youtubeUrl, raw.customTitle⟩
        clk yt up (disk0 ++ [raw.fileSavedName]) cats0
    else
      (.middlewareError 500 "Invalid file type. Only video files are allowed.",
        disk0, cats0)

/-- The shared-file effect of the catalog commit, split at its two
filesystem touch points: the handler reads the posts list at entry
(src/app.js line 170) and writes `snapshot ++ [newPost]` at commit
(lines 301-302), with the whole pipeline's `await`s in between. -/
def handlerWritePosts (snapshot : List MediaRecord) (newPost : MediaRecord) :
    Option (List MediaRecord) :=
  some (snapshot ++ [newPost])

/-- Two concurrent successful ingestions under the interleaving
read₁ read₂ write₁ write₂, which the unsynchronized handler permits:
both requests snapshot the same initial list, the second write overwrites
the first. -/
def interleavedRun (cats0 : Option (List MediaRecord))
    (r1 r2 : MediaRecord) : Option (List MediaRecord) :=
  let f0 := ensureCatsFileExists cats0
  let snap1 := f0.getD []
  let snap2 := f0.getD []
  let f1 := handlerWritePosts snap1 r1
  let _ := f1
  handlerWritePosts snap2 r2

theorem catsAppendAll_some (rs : List MediaRecord) :
    ∀ l : List MediaRecord, catsAppendAll (some l) rs = some (l ++ rs) := by
  induction rs with
  | nil => intro l; simp [catsAppendAll]
  | cons r rs ih =>
    intro l
    simpa [catsAppendAll, catsAppend, ensureCatsFileExists, List.foldl_cons]
      using ih (l ++ [r])

/-- C9: `list()` right after N sequential `append()` calls returns exactly
those N records in append order, and when the persisted file is absent both
`append` and `list` first transparently turn it into the empty sequence. -/
theorem c9_list_append_round_trip :
    (∀ rs : List MediaRecord, (catsList (catsAppendAll none rs)).1 = rs) ∧
    ensureCatsFileExists none = some [] ∧
    (∀ r : MediaRecord, catsAppend none r = some [r]) ∧
    (catsList none).1 = [] := by
  refine ⟨fun rs => ?_, rfl, fun r => rfl, rfl⟩
  cases rs with
  | nil => rfl
  | cons r rs =>
    have h : catsAppendAll none (r :: rs) = catsAppendAll (some [r]) rs := by
      simp [catsAppendAll, catsAppend, ensureCatsFileExists]
    rw [h, catsAppendAll_some]
    simp [catsList, ensureCatsFileExists]

theorem toDigitsCore_digits (fuel : Nat) :
    ∀ (n : Nat) (ds : List Char),
      (∀ c ∈ ds, c ∈ ['0', '1', '2', '3', '4', '5', '6', '7', '8', '9']) →
      ∀ c ∈ Nat.toDigitsCore 10 fuel n ds,
        c ∈ ['0', '1', '2', '3', '4', '5', '6', '7', '8', '9'] := by
  induction fuel with
  | zero =>
    intro n ds h c hc
    rw [Nat.toDigitsCore] at hc
    exact h c hc
  | succ f ih =>
    intro n ds h c hc
    rw [Nat.toDigitsCore] at hc
    have hd : Nat.digitChar (n % 10) ∈
        ['0', '1', '2', '3', '4', '5', '6', '7', '8', '9'] := by
      have h10 : n % 10 < 10 := Nat.mod_lt _ (by omega)
      interval_cases hm : (n % 10) <;> decide
    have hds : ∀ c ∈ Nat.digitChar (n % 10) :: ds,
        c ∈ ['0', '1', '2', '3', '4', '5', '6', '7', '8', '9'] := by
      intro c hcc
      rcases List.mem_cons.mp hcc with h1 | h2
      · exact h1 ▸ hd
      · exact h c h2
    by_cases hz : n / 10 = 0
    · rw [if_pos hz] at hc
      exact hds c hc
    · rw [if_neg hz] at hc
      exact ih (n / 10) _ hds c hc

theorem toDigitsCore_length_le (fuel : Nat) :
    ∀ (n : Nat) (ds : List Char),
      ds.length ≤ (Nat.toDigitsCore 10 fuel n ds).length := by
  induction fuel with
  | zero => intro n ds; rw [Nat.toDigitsCore]
  | succ f ih =>
    intro n ds
    rw [Nat.toDigitsCore]
    by_cases hz : n / 10 = 0
    · rw [if_pos hz]; simp
    · rw [if_neg hz]
      calc ds.length ≤ (Nat.digitChar (n % 10) :: ds).length := by simp
        _ ≤ _ := ih (n / 10) _

theorem toDigits_ne_nil (n : Nat) : Nat.toDigits 10 n ≠ [] := by
  rw [Nat.toDigits, Nat.toDigitsCore]
  by_cases hz : n / 10 = 0
  · rw [if_pos hz]; simp
  · rw [if_neg hz]
    intro hEq
    have h := toDigitsCore_length_le n (n / 10) [Nat.digitChar (n % 10)]
    rw [hEq] at h
    simp at h

theorem repr_head_digit (n : Nat) :
    ∃ d t, (Nat.repr n).data = d :: t ∧
      d ∈ ['0', '1', '2', '3', '4', '5', '6', '7', '8', '9'] := by
  have hne := toDigits_ne_nil n
  cases hEq : Nat.toDigits 10 n with
  | nil => exact absurd hEq hne
  | cons d t =>
    refine ⟨d, t, ?_, ?_⟩
    · show (List.asString (Nat.toDigits 10 n)).data = d :: t
      rw [hEq]
      rfl
    · have hmem := toDigitsCore_digits (n + 1) n []
        (by intro c hc; cases hc)
      rw [show Nat.toDigitsCore 10 (n + 1) n [] = Nat.toDigits 10 n from rfl,
        hEq] at hmem
      exact hmem d (List.mem_cons_self d t)

theorem tempName_not_starts_final (a b : Nat) :
    strStarts (tempNameOf a) (finalFilenameYt b) = false := by
  rw [strStarts, decide_eq_false_iff_not]
  intro hpre
  obtain ⟨d, t, hd, hdig⟩ := repr_head_digit b
  have hl : (tempNameOf a).data =
      'y' :: 't' :: '_' :: 't' :: 'e' :: 'm' :: 'p' :: '_' :: (Nat.repr a).data := rfl
  have hr : (finalFilenameYt b).data =
      'y' :: 't' :: '_' :: ((Nat.repr b).data ++ "_h264.mp4".data) := rfl
  rw [hl, hr, hd] at hpre
  simp only [List.cons_append, List.cons_prefix_cons] at hpre
  obtain ⟨-, -, -, h4, -⟩ := hpre
  rw [← h4] at hdig
  simp at hdig

theorem resolveDownload_error_iff (dirFiles : List String) (tempName : String) :
    (∃ msg, resolveDownload dirFiles tempName = Except.error msg) ↔
      dirFiles.filter (fun f => strStarts tempName f) = [] := by
  rw [resolveDownload]
  cases hEq : dirFiles.filter (fun f => strStarts tempName f) with
  | nil => simp
  | cons first rest => simp

theorem resolveDownload_ok_elim {dirFiles : List String} {tempName m : String}
    {ts : List String}
    (h : resolveDownload dirFiles tempName = Except.ok (m, ts)) :
    ∃ first rest,
      dirFiles.filter (fun f => strStarts tempName f) = first :: rest ∧
      m = ((first :: rest).find? hasVideoExt).getD first ∧
      ts = (first :: rest).filter (fun f => !(f == m)) := by
  rw [resolveDownload] at h
  cases hEq : dirFiles.filter (fun f => strStarts tempName f) with
  | nil => rw [hEq] at h; cases h
  | cons first rest =>
    rw [hEq] at h
    simp only [Except.ok.injEq, Prod.mk.injEq] at h
    obtain ⟨hm, hts⟩ := h
    subst hm
    exact ⟨first, rest, rfl, rfl, hts.symm⟩

theorem resolveDownload_ok_temps {dirFiles : List String} {tempName m : String}
    {ts : List String}
    (h : resolveDownload dirFiles tempName = Except.ok (m, ts)) :
    ∀ t ∈ ts, strStarts tempName t = true := by
  obtain ⟨first, rest, hdl, hm, hts⟩ := resolveDownload_ok_elim h
  intro x hx
  rw [hts] at hx
  have hx2 := (List.mem_filter.mp hx).1
  rw [← hdl] at hx2
  exact (List.mem_filter.mp hx2).2

theorem stripExt_append_h264 (base : String) :
    stripExt (base ++ "_h264.mp4") = base ++ "_h264" := by
  have hrev : (base ++ "_h264.mp4").data.reverse =
      '4' :: 'p' :: 'm' :: '.' :: '4' :: '6' :: '2' :: 'h' :: '_' :: base.data.reverse := by
    rw [String.data_append, List.reverse_append]
    rfl
  have hmk : base ++ "_h264" =
      String.mk (base.data ++ ('_' :: 'h' :: '2' :: '6' :: '4' :: [])) := rfl
  simp only [stripExt, hrev]
  rw [hmk]
  simp [List.takeWhile_cons, List.dropWhile_cons]

/-- C6: the `displayName` precedence of a committed record: a truthy
caller-supplied `customTitle` always wins; else a truthy probed format tag
title wins; else a remote ingestion gets the generated
`YouTube Short <timestamp>` title and a direct upload gets the final file
name with its extension stripped; in the code-reachable fallback cases the
result is non-empty. -/
theorem c6_title_precedence :
    (∀ (ct : String) (tt : Option String) (iy : Bool) (n : Nat) (fn : String),
      ct ≠ "" → autoTitle (some ct) tt iy n fn = ct) ∧
    (∀ (ct : Option String) (tt : String) (iy : Bool) (n : Nat) (fn : String),
      jsTruthyS ct = false → tt ≠ "" → autoTitle ct (some tt) iy n fn = tt) ∧
    (∀ (ct tt : Option String) (n : Nat) (fn : String),
      jsTruthyS ct = false → jsTruthyS tt = false →
      autoTitle ct tt true n fn = "YouTube Short " ++ Nat.repr n ∧
      autoTitle ct tt true n fn ≠ "") ∧
    (∀ (ct tt : Option String) (n : Nat) (base : String),
      jsTruthyS ct = false → jsTruthyS tt = false →
      autoTitle ct tt false n (base ++ "_h264.mp4") = base ++ "_h264" ∧
      autoTitle ct tt false n (base ++ "_h264.mp4") ≠ "") := by
  refine ⟨?_, ?_, ?_, ?_⟩
  · intro ct tt iy n fn h
    simp [autoTitle, jsOrS, jsTruthyS, h]
  · intro ct tt iy n fn hct htt
    have h2 : jsTruthyS (some tt) = true := by simp [jsTruthyS, htt]
    simp [autoTitle, jsOrS, hct, h2]
  · intro ct tt n fn hct htt
    have h1 : autoTitle ct tt true n fn = "YouTube Short " ++ Nat.repr n := by
      simp [autoTitle, jsOrS, hct, htt]
    refine ⟨h1, ?_⟩
    rw [h1]
    intro h
    simpa using congrArg String.data h
  · intro ct tt n base hct htt
    have h1 : autoTitle ct tt false n (base ++ "_h264.mp4") = base ++ "_h264" := by
      rw [autoTitle, jsOrS, jsOrS]
      rw [hct, htt]
      simp [stripExt_append_h264]
    refine ⟨h1, ?_⟩
    rw [h1]
    intro h
    simpa using congrArg String.data h

theorem c6_title_precedence_witness :
    autoTitle (some "A") (some "B") true 9 "x.mp4" = "A" ∧
    autoTitle none (some "B") true 9 "x.mp4" = "B" ∧
    autoTitle none none true 9 "x.mp4" = "YouTube Short " ++ Nat.repr 9 ∧
    autoTitle none none false 9 ("abc" ++ "_h264.mp4") = "abc" ++ "_h264" :=
  ⟨c6_title_precedence.1 "A" (some "B") true 9 "x.mp4" (by decide),
   c6_title_precedence.2.1 none "B" true 9 "x.mp4" (by decide) (by decide),
   (c6_title_precedence.2.2.1 none none 9 "x.mp4" (by decide) (by decide)).1,
   (c6_title_precedence.2.2.2 none none 9 "abc" (by decide) (by decide)).1⟩

/-- C10: the remote-URL validity check is a pure substring test: a
`remoteUrl` passes exactly when it contains `youtube.com/shorts/` or
`youtu.be/` anywhere in it; in particular a URL on a foreign host that
embeds one of the substrings in its query is accepted. -/
theorem c10_url_check_is_substring_test :
    (∀ u : String, youtubeUrlRejected u = false ↔
      ("youtube.com/shorts/".data <:+: u.data ∨ "youtu.be/".data <:+: u.data)) ∧
    youtubeUrlRejected "https://evil.example/redirect?to=youtu.be/abc" = false := by
  constructor
  · intro u
    simp [youtubeUrlRejected, strIncludes]
    tauto
  · rfl

/-- C8 counterexample: an upload whose declared MIME type `video/webm` is
outside the allow-list is rejected, but the multer error carries no status,
so Express's default error handler answers 500 — not the claimed 400. -/
theorem c8_counterexample_mime_rejection_is_500 :
    postUploadCatVideo ⟨some "video/webm", "catvideo-1-2.webm", none, none⟩
        ⟨1, 2, 3, 4, "t"⟩ ⟨true, true, [], true, false, true, none⟩
        ⟨true, true, false, true, none⟩ [] (some []) =
      (.middlewareError 500 "Invalid file type. Only video files are allowed.",
        [], some []) ∧
    statusOf (.middlewareError 500
      "Invalid file type. Only video files are allowed.") ≠ some 400 :=
  ⟨rfl, by decide⟩

/-- C8 amended: a declared MIME type outside the allow-list is rejected
before acceptance (the handler never runs, nothing is saved, nothing is
appended), but it surfaces as an HTTP 500 via Express's default error
handler, not as a 400; an allow-listed MIME type is accepted: multer saves
the file and the handler runs on it. -/
theorem c8_mime_filter_behaviour (raw : RawRequest) (clk : Clock)
    (yt : YtScenario) (up : UploadScenario) (disk0 : List String)
    (cats0 : Option (List MediaRecord)) (m : String) :
    (fileFilterAllows m = true ↔ m ∈ allowedTypes) ∧
    (raw.fileMimetype = some m → fileFilterAllows m = false →
      postUploadCatVideo raw clk yt up disk0 cats0 =
        (.middlewareError 500 "Invalid file type. Only video files are allowed.",
          disk0, cats0)) ∧
    (raw.fileMimetype = some m → fileFilterAllows m = true →
      postUploadCatVideo raw clk yt up disk0 cats0 =
        uploadCatVideo ⟨some raw.fileSavedName, raw.youtubeUrl, raw.customTitle⟩
          clk yt up (disk0 ++ [raw.fileSavedName]) cats0) := by
  refine ⟨?_, ?_, ?_⟩
  · simp [fileFilterAllows]
  · intro hm hf
    simp [postUploadCatVideo, hm, hf]
  · intro hm hf
    simp [postUploadCatVideo, hm, hf]

theorem c8_mime_filter_behaviour_witness :
    (postUploadCatVideo ⟨some "video/webm", "f.webm", none, none⟩
        ⟨1, 2, 3, 4, "t"⟩ ⟨true, true, [], true, false, true, none⟩
        ⟨true, true, false, true, none⟩ [] (some []) =
      (.middlewareError 500 "Invalid file type. Only video files are allowed.",
        [], some [])) ∧
    (postUploadCatVideo ⟨some "video/mp4", "f.mp4", none, none⟩
        ⟨1, 2, 3, 4, "t"⟩ ⟨true, true, [], true, false, true, none⟩
        ⟨true, true, false, true, none⟩ [] (some []) =
      uploadCatVideo ⟨some "f.mp4", none, none⟩ ⟨1, 2, 3, 4, "t"⟩
        ⟨true, true, [], true, false, true, none⟩
        ⟨true, true, false, true, none⟩ ([] ++ ["f.mp4"]) (some [])) :=
  ⟨(c8_mime_filter_behaviour ⟨some "video/webm", "f.webm", none, none⟩
      ⟨1, 2, 3, 4, "t"⟩ ⟨true, true, [], true, false, true, none⟩
      ⟨true, true, false, true, none⟩ [] (some []) "video/webm").2.1
      rfl (by decide),
   (c8_mime_filter_behaviour ⟨some "video/mp4", "f.mp4", none, none⟩
      ⟨1, 2, 3, 4, "t"⟩ ⟨true, true, [], true, false, true, none⟩
      ⟨true, true, false, true, none⟩ [] (some []) "video/mp4").2.2
      rfl (by decide)⟩

/-- C1: failing input — a remote ingestion whose transcode fails after two
artifacts were downloaded and a half-written file was left at the final
path.  The run appends no record, but contrary to the claim nothing at all
is removed before the error surfaces: the `catch` block dereferences the
out-of-scope `tempFilesToCleanup` and crashes ahead of its cleanup code, so
both downloaded files and the half-written final file stay on disk. -/
theorem c1_failed_run_removes_no_artifacts :
    uploadCatVideo ⟨none, some "https://youtu.be/abc", none⟩ ⟨1, 2, 3, 4, "t"⟩
        ⟨true, true, ["yt_temp_1.mp4", "yt_temp_1.m4a"], false, true, true, none⟩
        ⟨true, true, false, true, none⟩ [] (some []) =
      (.handlerCrash refErrMsg,
        ["yt_temp_1.mp4", "yt_temp_1.m4a", "yt_2_h264.mp4"], some []) ∧
    (["yt_temp_1.mp4", "yt_temp_1.m4a", "yt_2_h264.mp4"] : List String) ≠ [] :=
  ⟨rfl, by decide⟩

/-- C2: failing input — a remote ingestion whose download fails.  The error
does not surface as an HTTP 500 `{error, details}` response: the `catch`
block itself throws the `ReferenceError`, `res.status(500).json(…)` is
never reached, and the application code produces no response at all. -/
theorem c2_failure_not_surfaced_as_500_json :
    (uploadCatVideo ⟨none, some "https://www.youtube.com/shorts/abc", none⟩
        ⟨1, 2, 3, 4, "t"⟩ ⟨true, false, [], true, false, true, none⟩
        ⟨true, true, false, true, none⟩ [] (some [])).1 =
      .handlerCrash refErrMsg ∧
    statusOf (.handlerCrash refErrMsg) = none :=
  ⟨rfl, rfl⟩

/-- C4: the catalog append is not serialized and generated names are not
collision-free.  Under the read-read-write-write interleaving of two
concurrent ingestions against an empty catalog the final catalog holds one
record instead of two (the first write is lost); and two requests whose
`Date.now()` calls land in the same millisecond produce two distinct
records with the same `id` and the same final file name / `url`. -/
theorem c4_concurrency_lost_update_and_collisions :
    (∀ r1 r2 : MediaRecord, interleavedRun none r1 r2 = some [r2]) ∧
    (∀ r1 r2 : MediaRecord, ((interleavedRun none r1 r2).getD []).length = 1) ∧
    ((uploadCatVideo ⟨none, some "https://youtu.be/a", some "A"⟩ ⟨1, 2, 3, 4, "t"⟩
        ⟨true, true, ["yt_temp_1.mp4"], true, false, true, none⟩
        ⟨true, true, false, true, none⟩ [] (some [])).1 =
      .created ⟨"4", "A", "/videos/yt_2_h264.mp4", "t", "youtube"⟩) ∧
    ((uploadCatVideo ⟨none, some "https://youtu.be/b", some "B"⟩ ⟨1, 2, 3, 4, "t"⟩
        ⟨true, true, ["yt_temp_1.mp4"], true, false, true, none⟩
        ⟨true, true, false, true, none⟩ [] (some [])).1 =
      .created ⟨"4", "B", "/videos/yt_2_h264.mp4", "t", "youtube"⟩) ∧
    (MediaRecord.mk "4" "A" "/videos/yt_2_h264.mp4" "t" "youtube" ≠
      MediaRecord.mk "4" "B" "/videos/yt_2_h264.mp4" "t" "youtube") ∧
    (MediaRecord.mk "4" "A" "/videos/yt_2_h264.mp4" "t" "youtube").id =
      (MediaRecord.mk "4" "B" "/videos/yt_2_h264.mp4" "t" "youtube").id ∧
    (MediaRecord.mk "4" "A" "/videos/yt_2_h264.mp4" "t" "youtube").url =
      (MediaRecord.mk "4" "B" "/videos/yt_2_h264.mp4" "t" "youtube").url :=
  ⟨fun _ _ => rfl, fun _ _ => rfl, rfl, rfl, by decide, rfl, rfl⟩

/-- C5 counterexample: a request carrying both an allow-listed uploaded file
and a remote URL is answered 400, but not with zero side effects: the file
multer saved before the handler ran stays on disk. -/
theorem c5_counterexample_both_leaves_file :
    postUploadCatVideo ⟨some "video/mp4", "catvideo-7-7.mp4",
        some "https://youtu.be/a", none⟩ ⟨1, 2, 3, 4, "t"⟩
        ⟨true, true, [], true, false, true, none⟩
        ⟨true, true, false, true, none⟩ [] (some []) =
      (.badRequest "Either video file or YouTube URL is required, but not both.",
        ["catvideo-7-7.mp4"], some []) ∧
    (["catvideo-7-7.mp4"] : List String) ≠ [] :=
  ⟨rfl, by decide⟩

/-- C5 amended: a request with neither a file nor a truthy remote URL is
rejected 400 with no change to the directory and no record appended; a
request with both is rejected 400 with no record appended, but the
multer-saved uploaded file remains on disk. -/
theorem c5_both_or_neither (raw : RawRequest) (clk : Clock) (yt : YtScenario)
    (up : UploadScenario) (disk0 : List String)
    (cats0 : Option (List MediaRecord)) :
    (raw.fileMimetype = none → jsTruthyS raw.youtubeUrl = false →
      postUploadCatVideo raw clk yt up disk0 cats0 =
        (.badRequest "Either video file or YouTube URL is required, but not both.",
          disk0, ensureCatsFileExists cats0)) ∧
    (∀ m, raw.fileMimetype = some m → fileFilterAllows m = true →
      jsTruthyS raw.youtubeUrl = true →
      postUploadCatVideo raw clk yt up disk0 cats0 =
        (.badRequest "Either video file or YouTube URL is required, but not both.",
          disk0 ++ [raw.fileSavedName], ensureCatsFileExists cats0)) := by
  constructor
  · intro hm hurl
    simp [postUploadCatVideo, hm, uploadCatVideo, hurl]
  · intro m hm hf hurl
    simp [postUploadCatVideo, hm, hf, uploadCatVideo, hurl]

theorem c5_both_or_neither_witness :
    (postUploadCatVideo ⟨none, "f", none, none⟩ ⟨1, 2, 3, 4, "t"⟩
        ⟨true, true, [], true, false, true, none⟩
        ⟨true, true, false, true, none⟩ ["keep.mp4"] none =
      (.badRequest "Either video file or YouTube URL is required, but not both.",
        ["keep.mp4"], ensureCatsFileExists none)) ∧
    (postUploadCatVideo ⟨some "video/mp4", "catvideo-7-7.mp4",
        some "https://youtu.be/a", none⟩ ⟨1, 2, 3, 4, "t"⟩
        ⟨true, true, [], true, false, true, none⟩
        ⟨true, true, false, true, none⟩ [] (some []) =
      (.badRequest "Either video file or YouTube URL is required, but not both.",
        [] ++ ["catvideo-7-7.mp4"], ensureCatsFileExists (some []))) :=
  ⟨(c5_both_or_neither ⟨none, "f", none, none⟩ ⟨1, 2, 3, 4, "t"⟩
      ⟨true, true, [], true, false, true, none⟩
      ⟨true, true, false, true, none⟩ ["keep.mp4"] none).1 rfl rfl,
   (c5_both_or_neither ⟨some "video/mp4", "catvideo-7-7.mp4",
      some "https://youtu.be/a", none⟩ ⟨1, 2, 3, 4, "t"⟩
      ⟨true, true, [], true, false, true, none⟩
      ⟨true, true, false, true, none⟩ [] (some [])).2 "video/mp4" rfl
      (by decide) (by decide)⟩

/-- C7 counterexample: the directory offers both an `.mkv` and an `.mp4`
carrying the temp stem; the selection takes the `.mkv` — the first file in
listing order with any of the three video extensions — not the `.mp4`. -/
theorem c7_counterexample_mkv_selected_over_mp4 :
    resolveDownload ["yt_temp_1.mkv", "yt_temp_1.mp4"] (tempNameOf 1) =
      Except.ok ("yt_temp_1.mkv", ["yt_temp_1.mp4"]) ∧
    strEnds ".mp4" "yt_temp_1.mp4" = true ∧
    strEnds ".mp4" "yt_temp_1.mkv" = false :=
  ⟨rfl, by decide, by decide⟩

/-- C7 amended: after a remote download the operation fails (with the
download-failed error) exactly when no file in the directory carries the
temp stem; otherwise the selected main file is the FIRST matching file in
directory-listing order whose name ends in one of the three video
extensions (every matching file listed before it lacks them all), or, when
no matching file has one, the first matching file outright; and the
returned temp artifacts are exactly the other matching files. -/
theorem c7_main_file_selection (dirFiles : List String) (tempName : String) :
    ((∃ msg, resolveDownload dirFiles tempName = Except.error msg) ↔
      dirFiles.filter (fun f => strStarts tempName f) = []) ∧
    (∀ m ts, resolveDownload dirFiles tempName = Except.ok (m, ts) →
      m ∈ dirFiles.filter (fun f => strStarts tempName f) ∧
      (hasVideoExt m = false →
        ∀ f ∈ dirFiles.filter (fun f => strStarts tempName f),
          hasVideoExt f = false) ∧
      m ∉ ts ∧
      (∀ f ∈ dirFiles.filter (fun f => strStarts tempName f),
        f ≠ m → f ∈ ts) ∧
      (∀ t ∈ ts,
        t ∈ dirFiles.filter (fun f => strStarts tempName f) ∧ t ≠ m) ∧
      ((hasVideoExt m = true ∧
        ∃ l₁ l₂, dirFiles.filter (fun f => strStarts tempName f) =
            l₁ ++ m :: l₂ ∧
          ∀ f ∈ l₁, hasVideoExt f = false) ∨
       ((∀ f ∈ dirFiles.filter (fun f => strStarts tempName f),
          hasVideoExt f = false) ∧
        (dirFiles.filter (fun f => strStarts tempName f)).head? = some m))) := by
  refine ⟨resolveDownload_error_iff dirFiles tempName, ?_⟩
  intro m ts h
  obtain ⟨first, rest, hdl, hm, hts⟩ := resolveDownload_ok_elim h
  refine ⟨?_, ?_, ?_, ?_, ?_, ?_⟩
  · rw [hdl]
    cases hf : (first :: rest).find? hasVideoExt with
    | none => rw [hm, hf]; simp
    | some a =>
      rw [hm, hf]
      simpa using List.mem_of_find?_eq_some hf
  · intro hvm f hf
    cases hfind : (first :: rest).find? hasVideoExt with
    | none =>
      rw [hdl] at hf
      have := List.find?_eq_none.mp hfind f hf
      simpa using this
    | some a =>
      have h1 := List.find?_some hfind
      rw [hm, hfind] at hvm
      simp only [Option.getD_some] at hvm
      rw [hvm] at h1
      cases h1
  · rw [hts]
    intro hmem
    have := (List.mem_filter.mp hmem).2
    simp at this
  · intro f hf hne
    rw [hts]
    rw [hdl] at hf
    exact List.mem_filter.mpr ⟨hf, by simp [hne]⟩
  · intro t ht
    rw [hts] at ht
    have h1 := List.mem_filter.mp ht
    refine ⟨by rw [hdl]; exact h1.1, ?_⟩
    have h2 := h1.2
    simpa using h2
  · cases hfind : (first :: rest).find? hasVideoExt with
    | none =>
      right
      constructor
      · intro f hf
        rw [hdl] at hf
        have := List.find?_eq_none.mp hfind f hf
        simpa using this
      · rw [hm, hfind, hdl]
        simp
    | some a =>
      left
      rw [hm, hfind]
      simp only [Option.getD_some]
      obtain ⟨hpa, as, bs, hsplit, hbefore⟩ := List.find?_eq_some.mp hfind
      refine ⟨hpa, as, bs, ?_, ?_⟩
      · rw [hdl, hsplit]
      · intro f hf
        have := hbefore f hf
        simpa using this

theorem c7_main_file_selection_witness :
    "yt_temp_1.mkv" ∈ (["yt_temp_1.mkv", "yt_temp_1.mp4"].filter
        (fun f => strStarts (tempNameOf 1) f)) ∧
    (hasVideoExt "yt_temp_1.mkv" = false →
      ∀ f ∈ (["yt_temp_1.mkv", "yt_temp_1.mp4"].filter
        (fun f => strStarts (tempNameOf 1) f)), hasVideoExt f = false) ∧
    "yt_temp_1.mkv" ∉ ["yt_temp_1.mp4"] ∧
    (∀ f ∈ (["yt_temp_1.mkv", "yt_temp_1.mp4"].filter
        (fun f => strStarts (tempNameOf 1) f)),
      f ≠ "yt_temp_1.mkv" → f ∈ ["yt_temp_1.mp4"]) ∧
    (∀ t ∈ (["yt_temp_1.mp4"] : List String),
      t ∈ (["yt_temp_1.mkv", "yt_temp_1.mp4"].filter
        (fun f => strStarts (tempNameOf 1) f)) ∧ t ≠ "yt_temp_1.mkv") ∧
    ((hasVideoExt "yt_temp_1.mkv" = true ∧
      ∃ l₁ l₂, (["yt_temp_1.mkv", "yt_temp_1.mp4"].filter
          (fun f => strStarts (tempNameOf 1) f)) =
          l₁ ++ "yt_temp_1.mkv" :: l₂ ∧
        ∀ f ∈ l₁, hasVideoExt f = false) ∨
     ((∀ f ∈ (["yt_temp_1.mkv", "yt_temp_1.mp4"].filter
          (fun f => strStarts (tempNameOf 1) f)), hasVideoExt f = false) ∧
      (["yt_temp_1.mkv", "yt_temp_1.mp4"].filter
          (fun f => strStarts (tempNameOf 1) f)).head? =
        some "yt_temp_1.mkv")) :=
  (c7_main_file_selection ["yt_temp_1.mkv", "yt_temp_1.mp4"] (tempNameOf 1)).2
    "yt_temp_1.mkv" ["yt_temp_1.mp4"] rfl

theorem uploadCatVideo_created {req : JsRequest} {clk : Clock}
    {yt : YtScenario} {up : UploadScenario} {disk0 : List String}
    {cats0 : Option (List MediaRecord)} {newPost : MediaRecord}
    {disk' : List String} {cats' : Option (List MediaRecord)}
    (h : uploadCatVideo req clk yt up disk0 cats0 =
      (.created newPost, disk', cats')) :
    cats' = some (((ensureCatsFileExists cats0).getD []) ++ [newPost]) ∧
    ∃ f, newPost.url = "/videos/" ++ f ∧ f ∈ disk' := by
  simp only [uploadCatVideo] at h
  split at h
  · exact absurd h (by simp)
  · split at h
    · split at h
      · exact absurd h (by simp)
      · split at h
        · exact absurd h (by simp)
        · split at h
          · exact absurd h (by simp)
          · split at h
            · exact absurd h (by simp)
            · rename_i mainFile temps heq
              split at h
              · exact absurd h (by simp)
              · split at h
                · exact absurd h (by simp)
                · simp only [Prod.mk.injEq, UpResult.created.injEq] at h
                  obtain ⟨hnp, hdisk, hcats⟩ := h
                  subst hnp
                  subst hdisk
                  subst hcats
                  refine ⟨rfl, finalFilenameYt clk.finalNow, rfl, ?_⟩
                  have hnotmem : finalFilenameYt clk.finalNow ∉ temps := by
                    intro hmem
                    have h1 := resolveDownload_ok_temps heq _ hmem
                    rw [tempName_not_starts_final] at h1
                    cases h1
                  refine List.mem_filter.mpr ⟨?_, ?_⟩
                  · exact List.mem_append_right _ (List.mem_singleton.mpr rfl)
                  · simp [hnotmem]
    · split at h
      · exact absurd h (by simp)
      · split at h
        · exact absurd h (by simp)
        · split at h
          · exact absurd h (by simp)
          · split at h
            · exact absurd h (by simp)
            · simp only [Prod.mk.injEq, UpResult.created.injEq] at h
              obtain ⟨hnp, hdisk, hcats⟩ := h
              subst hnp
              subst hdisk
              subst hcats
              exact ⟨rfl, _, rfl,
                List.mem_append_right _ (List.mem_singleton.mpr rfl)⟩

/-- C3: whenever `POST /upload-cat-video` completes successfully, exactly
one record is appended to the catalog (the new list is the old list plus
the one new record), and the file named by that record's `url` field is in
the `videos` directory at the moment the catalog write returns, so no
commit ever references a missing file. -/
theorem c3_success_appends_one_record_with_existing_file
    (raw : RawRequest) (clk : Clock) (yt : YtScenario) (up : UploadScenario)
    (disk0 : List String) (cats0 : Option (List MediaRecord))
    (newPost : MediaRecord) (disk' : List String)
    (cats' : Option (List MediaRecord))
    (h : postUploadCatVideo raw clk yt up disk0 cats0 =
      (.created newPost, disk', cats')) :
    cats' = some (((ensureCatsFileExists cats0).getD []) ++ [newPost]) ∧
    ∃ f, newPost.url = "/videos/" ++ f ∧ f ∈ disk' := by
  simp only [postUploadCatVideo] at h
  split at h
  · exact uploadCatVideo_created h
  · split at h
    · exact uploadCatVideo_created h
    · exact absurd h (by simp)

theorem c3_success_witness :
    (postUploadCatVideo ⟨some "video/mp4", "catvideo-7-7.mp4", none, none⟩
        ⟨1, 2, 3, 4, "t"⟩ ⟨true, true, [], true, false, true, none⟩
        ⟨true, true, false, true, some "Tag"⟩ [] none =
      (.created ⟨"4", "Tag", "/videos/catvideo-7-7_h264.mp4", "t", "upload"⟩,
        ["catvideo-7-7_h264.mp4"],
        some [⟨"4", "Tag", "/videos/catvideo-7-7_h264.mp4", "t", "upload"⟩])) ∧
    (some [MediaRecord.mk "4" "Tag" "/videos/catvideo-7-7_h264.mp4" "t"
        "upload"] =
      some (((ensureCatsFileExists none).getD []) ++
        [MediaRecord.mk "4" "Tag" "/videos/catvideo-7-7_h264.mp4" "t"
          "upload"]) ∧
     ∃ f, (MediaRecord.mk "4" "Tag" "/videos/catvideo-7-7_h264.mp4" "t"
        "upload").url = "/videos/" ++ f ∧ f ∈ ["catvideo-7-7_h264.mp4"]) :=
  ⟨rfl, c3_success_appends_one_record_with_existing_file
    ⟨some "video/mp4", "catvideo-7-7.mp4", none, none⟩ ⟨1, 2, 3, 4, "t"⟩
    ⟨true, true, [], true, false, true, none⟩
    ⟨true, true, false, true, some "Tag"⟩ [] none
    ⟨"4", "Tag", "/videos/catvideo-7-7_h264.mp4", "t", "upload"⟩
    ["catvideo-7-7_h264.mp4"]
    (some [⟨"4", "Tag", "/videos/catvideo-7-7_h264.mp4", "t", "upload"⟩])
    rfl⟩
